import Mathlib

/-!
Shallow embedding of the cross-market arbitrage core (conditions, strategy,
payoffs, scanner, backtest) of the paper-replication repository, together with
theorems settling the frozen claims about it.

Conventions of the embedding:
* Python floats are modelled as rationals (`ℚ`); the float literal `0.02`
  becomes `1/50`, `100.0` becomes `100`.
* A Python function that can `raise ValueError(msg)` is modelled as
  `Except String _`, carrying the exact message string of the source.
* Python `str.strip()`, `str.lower()`, `str.upper()` are modelled by
  `pyStrip`, `pyLower`, `pyUpper` over the character list of a `String`
  (ASCII whitespace, ASCII case mapping via `Char.toLower`/`Char.toUpper`).
* pandas `DataFrame`s are modelled as lists of records, and the dict built by
  `Series.to_dict()` as a lookup function built left-to-right (later rows
  overwrite earlier ones, as CPython dict assignment does).
-/

/-- Model of Python `str.lower()` (per-character lowercasing). -/
def pyLower (s : String) : String := ⟨s.data.map Char.toLower⟩

/-- Model of Python `str.upper()` (per-character uppercasing). -/
def pyUpper (s : String) : String := ⟨s.data.map Char.toUpper⟩

/-- ASCII whitespace, the characters Python `str.strip()` removes on the
inputs this system sees. -/
def isSpaceChar (c : Char) : Bool := c == ' ' || c == '\t' || c == '\n' || c == '\r'

/-- Model of Python `str.strip()`: drop leading and trailing whitespace. -/
def pyStrip (s : String) : String :=
  ⟨((s.data.dropWhile isSpaceChar).reverse.dropWhile isSpaceChar).reverse⟩

/-! ## ConditionEngine — src/arbitrage/conditions.py -/

/-- Embedding of `binary_qty_to_cover_vanilla` (conditions.py lines 5-24):
quantity of binary contracts covering the vanilla premium plus fees,
`Q_B = Q_V * (P_V + F) / (1 - P_B)`, with the source's domain checks in the
source's order. -/
def binary_qty_to_cover_vanilla (Qv Pv_usd fee_usd Pb : ℚ) : Except String ℚ :=
  if ¬(0 < Pb ∧ Pb < 1) then .error "Pb must be in (0,1)."
  else if Qv ≤ 0 then .error "Qv must be > 0."
  else if Pv_usd < 0 then .error "Pv_usd must be >= 0."
  else if fee_usd < 0 then .error "fee_usd must be >= 0."
  else .ok (Qv * (Pv_usd + fee_usd) / (1 - Pb))

/-- Embedding of `kv_bound_for_call_case` (conditions.py lines 27-38):
upper bound on the vanilla call strike, `K_B - (Q_V * P_V) / (1 - P_B)`. -/
def kv_bound_for_call_case (Kb Qv Pv_usd Pb : ℚ) : Except String ℚ :=
  if ¬(0 < Pb ∧ Pb < 1) then .error "Pb must be in (0,1)."
  else if Qv ≤ 0 then .error "Qv must be > 0."
  else .ok (Kb - Qv * Pv_usd / (1 - Pb))

/-- Embedding of `kv_bound_for_put_case` (conditions.py lines 41-52):
lower bound on the vanilla put strike, `K_B + (Q_V * P_V) / (1 - P_B)`. -/
def kv_bound_for_put_case (Kb Qv Pv_usd Pb : ℚ) : Except String ℚ :=
  if ¬(0 < Pb ∧ Pb < 1) then .error "Pb must be in (0,1)."
  else if Qv ≤ 0 then .error "Qv must be > 0."
  else .ok (Kb + Qv * Pv_usd / (1 - Pb))

/-! ## CandidateBuilder — src/arbitrage/strategy.py -/

/-- Embedding of the frozen dataclass `TradeCandidate` (strategy.py lines
18-60), fields in source order; option-type labels are the strings `"call"`
and `"put"` exactly as the Python `Literal` values. -/
structure TradeCandidate where
  date : String
  underlying : String
  expiry : String
  spot : ℚ
  binary_type : String
  Kb : ℚ
  Pb : ℚ
  vanilla_type : String
  Kv : ℚ
  Pv_usd : ℚ
  Qv : ℚ
  Qb : ℚ
  fee_usd : ℚ
  kv_bound : ℚ
  edge : ℚ
  deriving Repr, DecidableEq

/-- Embedding of `infer_direction` (strategy.py lines 63-75): the paper
direction rule, with `Kb == spot` falling into the else branch, and a
`ValueError` when `spot <= 0`. Returns `(binary_type, required_vanilla_type)`. -/
def infer_direction (spot Kb : ℚ) : Except String (String × String) :=
  if spot ≤ 0 then .error "spot must be > 0."
  else if Kb < spot then .ok ("put", "call")
  else .ok ("call", "put")

/-- Embedding of `check_and_build_candidate` (strategy.py lines 78-155).
The sanity checks return `Option.none` (Python `None`) in the source's order;
the direction, bound, edge and sizing steps call the embedded helpers, whose
possible domain errors propagate through `Except`. -/
def check_and_build_candidate (date underlying expiry : String)
    (spot Kb Pb Kv : ℚ) (vanilla_type : String) (Pv_usd : ℚ)
    (Qv : ℚ := 1) (fee_usd : ℚ := 0) : Except String (Option TradeCandidate) :=
  if spot ≤ 0 then .ok none
  else if ¬(0 < Pb ∧ Pb < 1) then .ok none
  else if Qv ≤ 0 then .ok none
  else if Pv_usd < 0 then .ok none
  else if fee_usd < 0 then .ok none
  else
    (infer_direction spot Kb).bind fun dir =>
      if vanilla_type ≠ dir.2 then .ok none
      else if vanilla_type = "call" then
        (kv_bound_for_call_case Kb Qv Pv_usd Pb).bind fun kv_bound =>
          if kv_bound - Kv > 0 then
            (binary_qty_to_cover_vanilla Qv Pv_usd fee_usd Pb).bind fun Qb =>
              .ok (some ⟨date, underlying, expiry, spot, dir.1, Kb, Pb,
                vanilla_type, Kv, Pv_usd, Qv, Qb, fee_usd, kv_bound, kv_bound - Kv⟩)
          else .ok none
      else
        (kv_bound_for_put_case Kb Qv Pv_usd Pb).bind fun kv_bound =>
          if Kv - kv_bound > 0 then
            (binary_qty_to_cover_vanilla Qv Pv_usd fee_usd Pb).bind fun Qb =>
              .ok (some ⟨date, underlying, expiry, spot, dir.1, Kb, Pb,
                vanilla_type, Kv, Pv_usd, Qv, Qb, fee_usd, kv_bound, Kv - kv_bound⟩)
          else .ok none

/-! ## PayoffEngine — src/arbitrage/payoffs.py -/

/-- Embedding of `payoff_long_call_binary_put` (payoffs.py lines 5-32):
`Q_v (max(S_T - K_v, 0) - P_v) + Q_b (E - P_b)` with the source's domain
checks. `E` is the realized binary outcome, an integer that must be 0 or 1. -/
def payoff_long_call_binary_put (S_T K_v P_v_usd Q_v P_b Q_b : ℚ) (E : ℤ) :
    Except String ℚ :=
  if S_T ≤ 0 then .error "S_T must be > 0."
  else if ¬(E = 0 ∨ E = 1) then .error "E must be 0 or 1."
  else if Q_v ≤ 0 ∨ Q_b ≤ 0 then .error "Quantities must be > 0."
  else .ok (Q_v * (max (S_T - K_v) 0 - P_v_usd) + Q_b * ((E : ℚ) - P_b))

/-- Embedding of `payoff_long_put_binary_call` (payoffs.py lines 35-61):
`Q_v (max(K_v - S_T, 0) - P_v) + Q_b (E - P_b)` with the source's domain
checks. -/
def payoff_long_put_binary_call (S_T K_v P_v_usd Q_v P_b Q_b : ℚ) (E : ℤ) :
    Except String ℚ :=
  if S_T ≤ 0 then .error "S_T must be > 0."
  else if ¬(E = 0 ∨ E = 1) then .error "E must be 0 or 1."
  else if Q_v ≤ 0 ∨ Q_b ≤ 0 then .error "Quantities must be > 0."
  else .ok (Q_v * (max (K_v - S_T) 0 - P_v_usd) + Q_b * ((E : ℚ) - P_b))

/-! ## Helper lemmas: behaviour of the ConditionEngine on valid inputs -/

theorem binary_qty_eq {Qv Pv_usd fee_usd Pb : ℚ} (h1 : 0 < Pb) (h2 : Pb < 1)
    (h3 : 0 < Qv) (h4 : 0 ≤ Pv_usd) (h5 : 0 ≤ fee_usd) :
    binary_qty_to_cover_vanilla Qv Pv_usd fee_usd Pb =
      .ok (Qv * (Pv_usd + fee_usd) / (1 - Pb)) := by
  unfold binary_qty_to_cover_vanilla
  rw [if_neg (not_not_intro ⟨h1, h2⟩), if_neg (not_le.mpr h3),
    if_neg (not_lt.mpr h4), if_neg (not_lt.mpr h5)]

theorem kv_bound_call_eq {Kb Qv Pv_usd Pb : ℚ} (h1 : 0 < Pb) (h2 : Pb < 1)
    (h3 : 0 < Qv) :
    kv_bound_for_call_case Kb Qv Pv_usd Pb = .ok (Kb - Qv * Pv_usd / (1 - Pb)) := by
  unfold kv_bound_for_call_case
  rw [if_neg (not_not_intro ⟨h1, h2⟩), if_neg (not_le.mpr h3)]

theorem kv_bound_put_eq {Kb Qv Pv_usd Pb : ℚ} (h1 : 0 < Pb) (h2 : Pb < 1)
    (h3 : 0 < Qv) :
    kv_bound_for_put_case Kb Qv Pv_usd Pb = .ok (Kb + Qv * Pv_usd / (1 - Pb)) := by
  unfold kv_bound_for_put_case
  rw [if_neg (not_not_intro ⟨h1, h2⟩), if_neg (not_le.mpr h3)]

theorem binary_qty_error {Qv Pv_usd fee_usd Pb : ℚ}
    (h : ¬(0 < Pb ∧ Pb < 1) ∨ Qv ≤ 0 ∨ Pv_usd < 0 ∨ fee_usd < 0) :
    ∃ e, binary_qty_to_cover_vanilla Qv Pv_usd fee_usd Pb = .error e := by
  unfold binary_qty_to_cover_vanilla
  by_cases hA : ¬(0 < Pb ∧ Pb < 1)
  · refine ⟨"Pb must be in (0,1).", ?_⟩
    rw [if_pos hA]
  by_cases hB : Qv ≤ 0
  · refine ⟨"Qv must be > 0.", ?_⟩
    rw [if_neg hA, if_pos hB]
  by_cases hC : Pv_usd < 0
  · refine ⟨"Pv_usd must be >= 0.", ?_⟩
    rw [if_neg hA, if_neg hB, if_pos hC]
  by_cases hD : fee_usd < 0
  · refine ⟨"fee_usd must be >= 0.", ?_⟩
    rw [if_neg hA, if_neg hB, if_neg hC, if_pos hD]
  exact absurd h (by simp [hA, hB, hC, hD])

/-- C3: on the valid domain the three ConditionEngine functions return exactly
the paper formulas `Qv*(Pv+fee)/(1-Pb)`, `Kb - Qv*Pv/(1-Pb)` and
`Kb + Qv*Pv/(1-Pb)`, and `binary_qty_to_cover_vanilla` fails with a domain
error whenever `Pb` is outside `(0,1)`, `Qv <= 0`, `Pv_usd < 0` or
`fee_usd < 0`. -/
theorem condition_engine_spec (Kb Qv Pv_usd fee_usd Pb : ℚ) :
    (0 < Pb → Pb < 1 → 0 < Qv → 0 ≤ Pv_usd → 0 ≤ fee_usd →
      binary_qty_to_cover_vanilla Qv Pv_usd fee_usd Pb =
          .ok (Qv * (Pv_usd + fee_usd) / (1 - Pb)) ∧
      kv_bound_for_call_case Kb Qv Pv_usd Pb = .ok (Kb - Qv * Pv_usd / (1 - Pb)) ∧
      kv_bound_for_put_case Kb Qv Pv_usd Pb = .ok (Kb + Qv * Pv_usd / (1 - Pb))) ∧
    (¬(0 < Pb ∧ Pb < 1) ∨ Qv ≤ 0 ∨ Pv_usd < 0 ∨ fee_usd < 0 →
      ∃ e, binary_qty_to_cover_vanilla Qv Pv_usd fee_usd Pb = .error e) := by
  constructor
  · intro h1 h2 h3 h4 h5
    exact ⟨binary_qty_eq h1 h2 h3 h4 h5, kv_bound_call_eq h1 h2 h3,
      kv_bound_put_eq h1 h2 h3⟩
  · exact binary_qty_error

/-- C3 witness: at `Qv = 1, Pv_usd = 2, fee_usd = 3, Pb = 1/2` the hedge
quantity is `1*(2+3)/(1/2) = 10`, the call bound at `Kb = 7` is `7 - 4 = 3`,
and an out-of-range probability `Pb = 2` yields a domain error. -/
theorem condition_engine_spec_witness :
    binary_qty_to_cover_vanilla 1 2 3 (1/2) = .ok 10 ∧
    kv_bound_for_call_case 7 1 2 (1/2) = .ok 3 ∧
    (∃ e, binary_qty_to_cover_vanilla 1 2 3 2 = .error e) := by
  have h := (condition_engine_spec 7 1 2 3 (1/2)).1 (by norm_num) (by norm_num)
    (by norm_num) (by norm_num) (by norm_num)
  obtain ⟨hq, hc, -⟩ := h
  norm_num at hq hc
  exact ⟨hq, hc, (condition_engine_spec 7 1 2 3 2).2 (Or.inl (by norm_num))⟩

/-- C6: `infer_direction` returns binary PUT with required vanilla CALL
exactly when `Kb < spot`, binary CALL with required vanilla PUT otherwise
(the at-the-money tie `Kb = spot` falls into the CALL/PUT branch), and fails
with the domain error `"spot must be > 0."` exactly when `spot <= 0`. -/
theorem infer_direction_spec (spot Kb : ℚ) :
    (0 < spot →
      (Kb < spot → infer_direction spot Kb = .ok ("put", "call")) ∧
      (spot ≤ Kb → infer_direction spot Kb = .ok ("call", "put"))) ∧
    (spot ≤ 0 → infer_direction spot Kb = .error "spot must be > 0.") := by
  unfold infer_direction
  constructor
  · intro hs
    constructor
    · intro hlt
      rw [if_neg (not_le.mpr hs), if_pos hlt]
    · intro hge
      rw [if_neg (not_le.mpr hs), if_neg (not_lt.mpr hge)]
  · intro hs
    rw [if_pos hs]

/-- C6 witness: at spot 70000 and binary strike 65000 the direction is binary
PUT / vanilla CALL; at the at-the-money tie spot = strike = 1 it is binary
CALL / vanilla PUT; and non-positive spot is a domain error. -/
theorem infer_direction_spec_witness :
    infer_direction 70000 65000 = .ok ("put", "call") ∧
    infer_direction 1 1 = .ok ("call", "put") ∧
    infer_direction 0 5 = .error "spot must be > 0." := by
  refine ⟨((infer_direction_spec 70000 65000).1 (by norm_num)).1 (by norm_num),
    ((infer_direction_spec 1 1).1 (by norm_num)).2 (by norm_num),
    (infer_direction_spec 0 5).2 (by norm_num)⟩

/-- C9: for every numerically invalid input — non-positive spot, probability
outside `(0,1)`, non-positive vanilla quantity, negative premium or negative
fee — `check_and_build_candidate` silently returns `None`: the guard clauses
fire before any ConditionEngine call, so no domain error reaches the caller. -/
theorem check_candidate_silent_rejection (date underlying expiry : String)
    (spot Kb Pb Kv : ℚ) (vanilla_type : String) (Pv_usd Qv fee_usd : ℚ)
    (h : spot ≤ 0 ∨ ¬(0 < Pb ∧ Pb < 1) ∨ Qv ≤ 0 ∨ Pv_usd < 0 ∨ fee_usd < 0) :
    check_and_build_candidate date underlying expiry spot Kb Pb Kv vanilla_type
      Pv_usd Qv fee_usd = .ok none := by
  unfold check_and_build_candidate
  by_cases h1 : spot ≤ 0
  · rw [if_pos h1]
  rw [if_neg h1]
  by_cases h2 : ¬(0 < Pb ∧ Pb < 1)
  · rw [if_pos h2]
  rw [if_neg h2]
  by_cases h3 : Qv ≤ 0
  · rw [if_pos h3]
  rw [if_neg h3]
  by_cases h4 : Pv_usd < 0
  · rw [if_pos h4]
  rw [if_neg h4]
  by_cases h5 : fee_usd < 0
  · rw [if_pos h5]
  exact absurd h (by simp [h1, h2, h3, h4, h5])

/-- C9 witness: a negative spot is silently rejected (no error), even though
`infer_direction` would raise on it. -/
theorem check_candidate_silent_rejection_witness :
    check_and_build_candidate "2024-01-01" "BTC" "2024-02-01" (-1) 65000 (1/2)
      60000 "call" 2000 1 0 = .ok none :=
  check_candidate_silent_rejection "2024-01-01" "BTC" "2024-02-01" (-1) 65000
    (1/2) 60000 "call" 2000 1 0 (Or.inl (by norm_num))

/-! ## Inversion: what an accepted candidate looks like -/

/-- Every successfully built candidate carries the validated inputs and the
hedge quantity `Qv*(Pv_usd+fee_usd)/(1-Pb)`, with a strictly positive edge. -/
theorem check_candidate_ok_props (date underlying expiry : String)
    (spot Kb Pb Kv : ℚ) (vanilla_type : String) (Pv_usd Qv fee_usd : ℚ)
    (cand : TradeCandidate)
    (hacc : check_and_build_candidate date underlying expiry spot Kb Pb Kv
      vanilla_type Pv_usd Qv fee_usd = .ok (some cand)) :
    cand.Pb = Pb ∧ cand.Qv = Qv ∧ cand.Pv_usd = Pv_usd ∧ cand.fee_usd = fee_usd ∧
    cand.vanilla_type = vanilla_type ∧ cand.Kv = Kv ∧
    0 < Pb ∧ Pb < 1 ∧ 0 < Qv ∧ 0 ≤ Pv_usd ∧ 0 ≤ fee_usd ∧
    cand.Qb = Qv * (Pv_usd + fee_usd) / (1 - Pb) ∧ 0 < cand.edge ∧
    (vanilla_type = "call" ∨ vanilla_type = "put") := by
  unfold check_and_build_candidate at hacc
  by_cases h1 : spot ≤ 0
  · rw [if_pos h1] at hacc
    exact absurd hacc (by simp)
  rw [if_neg h1] at hacc
  by_cases h2 : ¬(0 < Pb ∧ Pb < 1)
  · rw [if_pos h2] at hacc
    exact absurd hacc (by simp)
  rw [if_neg h2] at hacc
  obtain ⟨hPb1, hPb2⟩ := not_not.mp h2
  by_cases h3 : Qv ≤ 0
  · rw [if_pos h3] at hacc
    exact absurd hacc (by simp)
  rw [if_neg h3] at hacc
  have hQv := not_le.mp h3
  by_cases h4 : Pv_usd < 0
  · rw [if_pos h4] at hacc
    exact absurd hacc (by simp)
  rw [if_neg h4] at hacc
  have hPv := not_lt.mp h4
  by_cases h5 : fee_usd < 0
  · rw [if_pos h5] at hacc
    exact absurd hacc (by simp)
  rw [if_neg h5] at hacc
  have hfee := not_lt.mp h5
  unfold infer_direction at hacc
  rw [if_neg h1] at hacc
  by_cases hdir : Kb < spot
  · rw [if_pos hdir] at hacc
    simp only [Except.bind] at hacc
    by_cases hvt : vanilla_type = "call"
    · rw [if_neg (not_not_intro hvt), if_pos hvt,
        kv_bound_call_eq hPb1 hPb2 hQv] at hacc
      simp only [Except.bind] at hacc
      by_cases hedge : Kb - Qv * Pv_usd / (1 - Pb) - Kv > 0
      · rw [if_pos hedge, binary_qty_eq hPb1 hPb2 hQv hPv hfee] at hacc
        simp only [Except.bind, Except.ok.injEq, Option.some.injEq] at hacc
        subst hacc
        exact ⟨rfl, rfl, rfl, rfl, rfl, rfl, hPb1, hPb2, hQv, hPv, hfee, rfl,
          hedge, Or.inl hvt⟩
      · rw [if_neg hedge] at hacc
        exact absurd hacc (by simp)
    · rw [if_pos hvt] at hacc
      exact absurd hacc (by simp)
  · rw [if_neg hdir] at hacc
    simp only [Except.bind] at hacc
    by_cases hvt : vanilla_type = "put"
    · rw [if_neg (not_not_intro hvt)] at hacc
      rw [if_neg (by rw [hvt]; decide)] at hacc
      rw [kv_bound_put_eq hPb1 hPb2 hQv] at hacc
      simp only [Except.bind] at hacc
      by_cases hedge : Kv - (Kb + Qv * Pv_usd / (1 - Pb)) > 0
      · rw [if_pos hedge, binary_qty_eq hPb1 hPb2 hQv hPv hfee] at hacc
        simp only [Except.bind, Except.ok.injEq, Option.some.injEq] at hacc
        subst hacc
        exact ⟨rfl, rfl, rfl, rfl, rfl, rfl, hPb1, hPb2, hQv, hPv, hfee, rfl,
          hedge, Or.inr hvt⟩
      · rw [if_neg hedge] at hacc
        exact absurd hacc (by simp)
    · rw [if_pos hvt] at hacc
      exact absurd hacc (by simp)

/-- C1 (amended): for every accepted candidate whose hedge cost is positive
(`Pv_usd + fee_usd > 0`, so that `Qb > 0` passes the PayoffEngine's quantity
check), the payoff on the worst adverse branch — vanilla leg out of the money
(its max(...) term zero) and binary outcome `E = 1` — is exactly
`Qv * fee_usd`, which is non-negative.  When `Pv_usd + fee_usd = 0` the
accepted candidate has `Qb = 0` and the PayoffEngine rejects it with a domain
error instead (see the counterexample). -/
theorem accepted_candidate_worst_branch_payoff (date underlying expiry : String)
    (spot Kb Pb Kv : ℚ) (vanilla_type : String) (Pv_usd Qv fee_usd : ℚ)
    (cand : TradeCandidate) (S_T : ℚ)
    (hacc : check_and_build_candidate date underlying expiry spot Kb Pb Kv
      vanilla_type Pv_usd Qv fee_usd = .ok (some cand))
    (hcost : 0 < Pv_usd + fee_usd) (hST : 0 < S_T) :
    (cand.vanilla_type = "call" → S_T ≤ cand.Kv →
      payoff_long_call_binary_put S_T cand.Kv cand.Pv_usd cand.Qv cand.Pb
        cand.Qb 1 = .ok (cand.Qv * cand.fee_usd)) ∧
    (cand.vanilla_type = "put" → cand.Kv ≤ S_T →
      payoff_long_put_binary_call S_T cand.Kv cand.Pv_usd cand.Qv cand.Pb
        cand.Qb 1 = .ok (cand.Qv * cand.fee_usd)) ∧
    0 ≤ cand.Qv * cand.fee_usd := by
  obtain ⟨ePb, eQv, ePv, efee, -, eKv, hPb1, hPb2, hQv, hPv, hfee, eQb, -, -⟩ :=
    check_candidate_ok_props date underlying expiry spot Kb Pb Kv vanilla_type
      Pv_usd Qv fee_usd cand hacc
  have hden : (0:ℚ) < 1 - Pb := by linarith
  have hQb : 0 < cand.Qb := by
    rw [eQb]
    exact div_pos (mul_pos hQv hcost) hden
  have hvalue : cand.Qv * (0 - cand.Pv_usd) + cand.Qb * ((1:ℚ) - cand.Pb) =
      cand.Qv * cand.fee_usd := by
    rw [ePb, eQv, ePv, efee, eQb, div_mul_cancel₀ _ (ne_of_gt hden)]
    ring
  refine ⟨?_, ?_, ?_⟩
  · intro _ hotm
    unfold payoff_long_call_binary_put
    rw [if_neg (not_le.mpr hST), if_neg (not_not_intro (Or.inr rfl)),
      if_neg (by push_neg; constructor <;> [rw [eQv]; skip] <;> linarith)]
    rw [max_eq_right (by rw [eKv] at hotm; linarith), Except.ok.injEq]
    calc cand.Qv * (0 - cand.Pv_usd) + cand.Qb * (((1:ℤ):ℚ) - cand.Pb)
        = cand.Qv * (0 - cand.Pv_usd) + cand.Qb * ((1:ℚ) - cand.Pb) := by
          norm_num
      _ = cand.Qv * cand.fee_usd := hvalue
  · intro _ hotm
    unfold payoff_long_put_binary_call
    rw [if_neg (not_le.mpr hST), if_neg (not_not_intro (Or.inr rfl)),
      if_neg (by push_neg; constructor <;> [rw [eQv]; skip] <;> linarith)]
    rw [max_eq_right (by rw [eKv] at hotm; linarith), Except.ok.injEq]
    calc cand.Qv * (0 - cand.Pv_usd) + cand.Qb * (((1:ℤ):ℚ) - cand.Pb)
        = cand.Qv * (0 - cand.Pv_usd) + cand.Qb * ((1:ℚ) - cand.Pb) := by
          norm_num
      _ = cand.Qv * cand.fee_usd := hvalue
  · rw [eQv, efee]
    exact mul_nonneg (le_of_lt hQv) hfee

/-- C1 counterexample: the accepted candidate built from
`spot = 2, Kb = 1, Pb = 1/2, Kv = 1/2, vanilla call, Pv_usd = 0, Qv = 1,
fee_usd = 0` (edge `1/2 > 0`) has hedge quantity `Qb = 0`, and on its worst
adverse branch (`S_T = 1/4`, vanilla OTM, `E = 1`) the PayoffEngine raises
the domain error `"Quantities must be > 0."` instead of returning the
payoff `Qv*fee_usd = 0`. -/
theorem accepted_zero_cost_payoff_error :
    check_and_build_candidate "d" "u" "e" 2 1 (1/2) (1/2) "call" 0 1 0 =
      .ok (some ⟨"d", "u", "e", 2, "put", 1, 1/2, "call", 1/2, 0, 1, 0, 0, 1,
        1/2⟩) ∧
    payoff_long_call_binary_put (1/4) (1/2) 0 1 (1/2) 0 1 =
      .error "Quantities must be > 0." := by
  constructor
  · norm_num [check_and_build_candidate, infer_direction, kv_bound_for_call_case,
      binary_qty_to_cover_vanilla, Except.bind]
  · norm_num [payoff_long_call_binary_put]

/-- C1 witness: the accepted candidate built from `spot = 200, Kb = 100,
Pb = 1/2, Kv = 50, vanilla call, Pv_usd = 1, Qv = 1, fee_usd = 1` has
`Qb = 4`, and at `S_T = 40` (vanilla OTM, `E = 1`) its payoff is
`Qv*fee_usd = 1 ≥ 0`. -/
theorem accepted_candidate_worst_branch_payoff_witness :
    payoff_long_call_binary_put 40 50 1 1 (1/2) 4 1 = .ok 1 := by
  have h := accepted_candidate_worst_branch_payoff "d" "u" "e" 200 100 (1/2) 50
    "call" 1 1 1 ⟨"d", "u", "e", 200, "put", 100, 1/2, "call", 50, 1, 1, 4, 1,
      98, 48⟩ 40
    (by norm_num [check_and_build_candidate, infer_direction,
      kv_bound_for_call_case, binary_qty_to_cover_vanilla, Except.bind])
    (by norm_num) (by norm_num)
  have h2 := h.1 rfl (by norm_num)
  norm_num at h2
  exact h2

/-- C5 (amended): with all other arguments valid, the hedge quantity is
strictly increasing in `Pv_usd` and in `fee_usd` unconditionally; it is
strictly increasing in `Qv`, and grows beyond any bound `M` as `Pb` tends to
1 from below, provided the covered cost `Pv_usd + fee_usd` is positive.
(At `Pv_usd = fee_usd = 0` the function is constantly 0 — see the
counterexample.) -/
theorem hedge_qty_monotone_divergent (Qv Qv' Pv_usd Pv' fee_usd fee' Pb M : ℚ)
    (hPb1 : 0 < Pb) (hPb2 : Pb < 1) (hQv : 0 < Qv) (hPv : 0 ≤ Pv_usd)
    (hfee : 0 ≤ fee_usd) :
    (∀ a b, binary_qty_to_cover_vanilla Qv Pv_usd fee_usd Pb = .ok a →
      binary_qty_to_cover_vanilla Qv Pv' fee_usd Pb = .ok b →
      Pv_usd < Pv' → a < b) ∧
    (∀ a b, binary_qty_to_cover_vanilla Qv Pv_usd fee_usd Pb = .ok a →
      binary_qty_to_cover_vanilla Qv Pv_usd fee' Pb = .ok b →
      fee_usd < fee' → a < b) ∧
    (0 < Pv_usd + fee_usd →
      ∀ a b, binary_qty_to_cover_vanilla Qv Pv_usd fee_usd Pb = .ok a →
        binary_qty_to_cover_vanilla Qv' Pv_usd fee_usd Pb = .ok b →
        Qv < Qv' → a < b) ∧
    (0 < Pv_usd + fee_usd →
      ∃ Pb' q, 0 < Pb' ∧ Pb' < 1 ∧
        binary_qty_to_cover_vanilla Qv Pv_usd fee_usd Pb' = .ok q ∧ M < q) := by
  have hden : (0:ℚ) < 1 - Pb := by linarith
  refine ⟨?_, ?_, ?_, ?_⟩
  · intro a b ha hb hlt
    rw [binary_qty_eq hPb1 hPb2 hQv hPv hfee, Except.ok.injEq] at ha
    rw [binary_qty_eq hPb1 hPb2 hQv (le_of_lt (lt_of_le_of_lt hPv hlt)) hfee,
      Except.ok.injEq] at hb
    rw [← ha, ← hb]
    exact (div_lt_div_iff_of_pos_right hden).mpr
      (mul_lt_mul_of_pos_left (by linarith) hQv)
  · intro a b ha hb hlt
    rw [binary_qty_eq hPb1 hPb2 hQv hPv hfee, Except.ok.injEq] at ha
    rw [binary_qty_eq hPb1 hPb2 hQv hPv (le_of_lt (lt_of_le_of_lt hfee hlt)),
      Except.ok.injEq] at hb
    rw [← ha, ← hb]
    exact (div_lt_div_iff_of_pos_right hden).mpr
      (mul_lt_mul_of_pos_left (by linarith) hQv)
  · intro hcost a b ha hb hlt
    rw [binary_qty_eq hPb1 hPb2 hQv hPv hfee, Except.ok.injEq] at ha
    rw [binary_qty_eq hPb1 hPb2 (lt_trans hQv hlt) hPv hfee,
      Except.ok.injEq] at hb
    rw [← ha, ← hb]
    exact (div_lt_div_iff_of_pos_right hden).mpr
      (mul_lt_mul_of_pos_right hlt hcost)
  · intro hcost
    set c : ℚ := Qv * (Pv_usd + fee_usd) with hc_def
    have hc : 0 < c := mul_pos hQv hcost
    have habs : (0:ℚ) ≤ |M| := abs_nonneg M
    have he : (0:ℚ) < c + |M| + 1 := by linarith
    have hfrac1 : 0 < c / (c + |M| + 1) := div_pos hc he
    have hfrac2 : c / (c + |M| + 1) < 1 := (div_lt_one he).mpr (by linarith)
    refine ⟨1 - c / (c + |M| + 1), c + |M| + 1, by linarith, by linarith,
      ?_, ?_⟩
    · rw [binary_qty_eq (by linarith) (by linarith) hQv hPv hfee,
        Except.ok.injEq, ← hc_def,
        show (1:ℚ) - (1 - c / (c + |M| + 1)) = c / (c + |M| + 1) by ring,
        div_div_eq_mul_div, mul_comm, mul_div_assoc,
        div_self (ne_of_gt hc), mul_one]
    · have := le_abs_self M
      linarith

/-- C5 counterexample: at the valid inputs `Pv_usd = fee_usd = 0` the hedge
quantity is 0 for `Qv = 1` and still 0 for `Qv = 2`, so it is not strictly
increasing in `Qv` (and, being 0 at every `Pb`, it does not diverge). -/
theorem hedge_qty_constant_at_zero_cost :
    binary_qty_to_cover_vanilla 1 0 0 (1/2) = .ok 0 ∧
    binary_qty_to_cover_vanilla 2 0 0 (1/2) = .ok 0 := by
  constructor <;> norm_num [binary_qty_to_cover_vanilla]

/-- C5 witness: the hedge quantity at `Qv = 1, fee_usd = 0, Pb = 1/2` rises
from 2 to 4 as the premium rises from 1 to 2, and for the same setting it
exceeds 100 at some valid `Pb'` close to 1. -/
theorem hedge_qty_monotone_divergent_witness :
    (2:ℚ) < 4 ∧
    (∃ Pb' q, 0 < Pb' ∧ Pb' < 1 ∧
      binary_qty_to_cover_vanilla 1 1 0 Pb' = .ok q ∧ 100 < q) := by
  have h := hedge_qty_monotone_divergent 1 2 1 2 0 1 (1/2) 100 (by norm_num)
    (by norm_num) (by norm_num) (by norm_num) (by norm_num)
  exact ⟨h.1 2 4 (by norm_num [binary_qty_to_cover_vanilla])
    (by norm_num [binary_qty_to_cover_vanilla]) (by norm_num),
    h.2.2.2 (by norm_num)⟩

/-! ## Scanner — src/arbitrage/scanner.py -/

/-- The keyword parameters `check_and_build_candidate` accepts, as written in
its signature (strategy.py lines 78-91). -/
def checkAndBuildCandidateParams : List String :=
  ["date", "underlying", "expiry", "spot", "Kb", "Pb", "Kv", "vanilla_type",
   "Pv_usd", "Qv", "fee_usd"]

/-- The keyword arguments the Scanner supplies when it calls
`check_and_build_candidate` (scanner.py lines 132-146). -/
def scannerCallKeywords : List String :=
  ["date", "underlying", "expiry", "spot", "Kb", "Pb", "Kv", "vanilla_type",
   "Pv_usd", "Qv", "fee_usd", "edge_epsilon", "pb_clip"]

/-- C2 (code bug): the Scanner's call passes the keywords `edge_epsilon` and
`pb_clip`, but `check_and_build_candidate` accepts neither — in Python the
call raises `TypeError` instead of succeeding, so no relaxed tolerance is ever
honoured (the builder itself only implements the strict `edge > 0` test). -/
theorem scanner_call_unknown_keywords :
    ("edge_epsilon" ∈ scannerCallKeywords ∧
      "edge_epsilon" ∉ checkAndBuildCandidateParams) ∧
    ("pb_clip" ∈ scannerCallKeywords ∧
      "pb_clip" ∉ checkAndBuildCandidateParams) := by
  decide

/-- The Scanner's recognized configuration options (the keyword-only
parameters of `scan_opportunities`, scanner.py lines 19-33). -/
structure ScanKnobs where
  Qv : ℚ
  fee_usd : ℚ
  min_edge : ℚ
  edge_epsilon : ℚ
  pb_clip : ℚ
  nearest_expiry_days : ℤ
  deriving Repr, DecidableEq

/-- The defaults written in the `scan_opportunities` signature:
`Qv=1.0, fee_usd=0.0, min_edge=0.0, edge_epsilon=100.0, pb_clip=0.02,
nearest_expiry_days=2`. -/
def scanOpportunitiesDefaults : ScanKnobs :=
  ⟨1, 0, 0, 100, 1/50, 2⟩

/-- C4 (amended): the recognized options default to `Qv = 1.0`,
`fee_usd = 0`, `min_edge = 0` as claimed, but to `edge_epsilon = 100.0`
(relaxed mode), `pb_clip = 0.02` and `nearest_expiry_days = 2`, not 0. -/
theorem scan_defaults_values :
    scanOpportunitiesDefaults.Qv = 1 ∧
    scanOpportunitiesDefaults.fee_usd = 0 ∧
    scanOpportunitiesDefaults.min_edge = 0 ∧
    scanOpportunitiesDefaults.edge_epsilon = 100 ∧
    scanOpportunitiesDefaults.pb_clip = 1/50 ∧
    scanOpportunitiesDefaults.nearest_expiry_days = 2 :=
  ⟨rfl, rfl, rfl, rfl, rfl, rfl⟩

/-- C4 counterexample: the three fallback-related defaults are not the
claimed strict values 0. -/
theorem scan_defaults_not_strict :
    scanOpportunitiesDefaults.edge_epsilon ≠ 0 ∧
    scanOpportunitiesDefaults.pb_clip ≠ 0 ∧
    scanOpportunitiesDefaults.nearest_expiry_days ≠ 0 := by
  refine ⟨by norm_num [scanOpportunitiesDefaults],
    by norm_num [scanOpportunitiesDefaults],
    by norm_num [scanOpportunitiesDefaults]⟩

/-! ## Sorting — the final `sort_values` steps of scanner and backtest -/

/-- Lexicographic (code-point) order on character lists: Python's string
comparison, used by pandas when sorting string key columns. -/
def strListLe : List Char → List Char → Bool
  | [], _ => true
  | _ :: _, [] => false
  | a :: as, b :: bs => if a = b then strListLe as bs else decide (a.toNat < b.toNat)

/-- Python string comparison on `String`. -/
def strLe (s t : String) : Bool := strListLe s.data t.data

theorem strListLe_total (x y : List Char) :
    strListLe x y = true ∨ strListLe y x = true := by
  induction x generalizing y with
  | nil => left; rfl
  | cons a as ih =>
    cases y with
    | nil => right; rfl
    | cons b bs =>
      by_cases hab : a = b
      · subst hab
        rcases ih bs with h | h
        · left; simpa [strListLe] using h
        · right; simpa [strListLe] using h
      · rcases Nat.lt_trichotomy a.toNat b.toNat with h | h | h
        · left; simp [strListLe, hab, h]
        · exact absurd (Char.ext (UInt32.ext h)) hab
        · right
          have hba : b ≠ a := fun e => hab e.symm
          simp [strListLe, hba, h]

theorem strLe_total (s t : String) : strLe s t = true ∨ strLe t s = true :=
  strListLe_total s.data t.data

/-- Insertion into a list sorted by the boolean relation `le`. -/
def insertSorted (le : α → α → Bool) (x : α) : List α → List α
  | [] => [x]
  | y :: ys => if le x y then x :: y :: ys else y :: insertSorted le x ys

/-- Sorting by the boolean relation `le`; models the ordering contract of
pandas `sort_values` on the given comparison key. -/
def sortRows (le : α → α → Bool) : List α → List α
  | [] => []
  | x :: xs => insertSorted le x (sortRows le xs)

theorem chain_insertSorted (le : α → α → Bool)
    (htot : ∀ a b, le a b = true ∨ le b a = true) (x : α) :
    ∀ l : List α, List.Chain' (fun a b => le a b = true) l →
      List.Chain' (fun a b => le a b = true) (insertSorted le x l) := by
  intro l
  induction l with
  | nil => intro _; simp [insertSorted]
  | cons y ys ih =>
    intro hl
    by_cases hxy : le x y = true
    · rw [insertSorted, if_pos hxy, List.chain'_cons]
      exact ⟨hxy, hl⟩
    · rw [insertSorted, if_neg hxy]
      have hyx : le y x = true := (htot x y).resolve_left hxy
      cases ys with
      | nil => simpa [insertSorted] using hyx
      | cons z zs =>
        rw [insertSorted]
        by_cases hxz : le x z = true
        · rw [if_pos hxz, List.chain'_cons, List.chain'_cons]
          exact ⟨hyx, hxz, hl.tail⟩
        · rw [if_neg hxz, List.chain'_cons]
          refine ⟨(List.chain'_cons.mp hl).1, ?_⟩
          have htail := ih hl.tail
          rw [insertSorted, if_neg hxz] at htail
          exact htail

theorem chain_sortRows (le : α → α → Bool)
    (htot : ∀ a b, le a b = true ∨ le b a = true) :
    ∀ l : List α, List.Chain' (fun a b => le a b = true) (sortRows le l) := by
  intro l
  induction l with
  | nil => simp [sortRows]
  | cons x xs ih => exact chain_insertSorted le htot x _ ih

/-- One output row of the Scanner (the dict appended at scanner.py lines
153-171), all fields of the underlying `TradeCandidate`. -/
structure ScanRow where
  date : String
  underlying : String
  expiry : String
  spot : ℚ
  binary_type : String
  Kb : ℚ
  Pb : ℚ
  vanilla_type : String
  Kv : ℚ
  Pv_usd : ℚ
  Qv : ℚ
  Qb : ℚ
  fee_usd : ℚ
  kv_bound : ℚ
  edge : ℚ
  deriving Repr, DecidableEq

/-- The comparison key of the Scanner's final sort (scanner.py line 177):
`["date", "underlying", "expiry", "edge"]` with
`ascending=[True, True, True, False]`. -/
def scanRowLe (a b : ScanRow) : Bool :=
  if a.date ≠ b.date then strLe a.date b.date
  else if a.underlying ≠ b.underlying then strLe a.underlying b.underlying
  else if a.expiry ≠ b.expiry then strLe a.expiry b.expiry
  else decide (b.edge ≤ a.edge)

theorem scanRowLe_total (a b : ScanRow) :
    scanRowLe a b = true ∨ scanRowLe b a = true := by
  unfold scanRowLe
  by_cases hd : a.date = b.date
  · rw [if_neg (not_not_intro hd), if_neg (not_not_intro hd.symm)]
    by_cases hu : a.underlying = b.underlying
    · rw [if_neg (not_not_intro hu), if_neg (not_not_intro hu.symm)]
      by_cases he : a.expiry = b.expiry
      · rw [if_neg (not_not_intro he), if_neg (not_not_intro he.symm)]
        rcases le_total a.edge b.edge with h | h
        · right; exact decide_eq_true h
        · left; exact decide_eq_true h
      · rw [if_pos he, if_pos (fun e => he e.symm)]
        exact strLe_total _ _
    · rw [if_pos hu, if_pos (fun e => hu e.symm)]
      exact strLe_total _ _
  · rw [if_pos hd, if_pos (fun e => hd e.symm)]
    exact strLe_total _ _

/-- The Scanner's final sort step (scanner.py lines 173-179): the collected
rows sorted by `(date, underlying, expiry)` ascending and `edge` descending
(`reset_index` does not change the row order). -/
def scanSortFinal (rows : List ScanRow) : List ScanRow := sortRows scanRowLe rows

/-- C7: the Scanner's final output — `scanSortFinal` of whatever candidate
rows the scan collected — is sorted by `(date, underlying, expiry)` ascending
with `edge` descending inside each group, for every list of rows: every pair
of consecutive output rows satisfies the sort key `scanRowLe`. -/
theorem scan_output_sorted (rows : List ScanRow) :
    List.Chain' (fun a b => scanRowLe a b = true) (scanSortFinal rows) :=
  chain_sortRows scanRowLe scanRowLe_total rows

/-! ## Spot tables and the two spot maps -/

/-- One row of the spot table (`date`, `underlying`, `spot`). -/
structure SpotRow where
  date : String
  underlying : String
  spot : ℚ
  deriving Repr, DecidableEq

/-- The Scanner's spot-map key after its normalization pass (scanner.py
lines 48-53): `date` stripped, `underlying` stripped then uppercased. -/
def scanSpotKey (r : SpotRow) : String × String :=
  (pyStrip r.date, pyUpper (pyStrip r.underlying))

/-- The backtest `_spot_map` key (backtest.py lines 12-16): `date` stripped,
`underlying` uppercased then stripped. -/
def btSpotKey (r : SpotRow) : String × String :=
  (pyStrip r.date, pyStrip (pyUpper r.underlying))

/-- The dict built by `set_index(["date", "underlying"])["spot"].to_dict()`:
rows are inserted left to right and a later row with the same key overwrites
an earlier one, as CPython dict assignment does. -/
def dictOfRows (key : SpotRow → String × String) (rows : List SpotRow) :
    String × String → Option ℚ :=
  rows.foldl (fun m r => fun k => if k = key r then some r.spot else m k)
    (fun _ => none)

/-- The Scanner's `spot_map` (scanner.py line 63). -/
def scanSpotMap (rows : List SpotRow) : String × String → Option ℚ :=
  dictOfRows scanSpotKey rows

/-- The backtest's `_spot_map` (backtest.py lines 12-16); the leading
underscore of the Python name is dropped. -/
def spot_map (rows : List SpotRow) : String × String → Option ℚ :=
  dictOfRows btSpotKey rows

/-- Specification side of C10: the spot of the last row of the table whose
(normalized) key equals `k`, i.e. the first match scanning from the end. -/
def lastSpotFor (key : SpotRow → String × String) (rows : List SpotRow)
    (k : String × String) : Option ℚ :=
  (rows.reverse.find? (fun r => decide (k = key r))).map SpotRow.spot

theorem dictOfRows_lookup (key : SpotRow → String × String) :
    ∀ (rows : List SpotRow) (m : String × String → Option ℚ)
      (k : String × String),
      (rows.foldl (fun m r => fun k => if k = key r then some r.spot else m k)
        m) k =
      ((rows.reverse.find? (fun r => decide (k = key r))).map SpotRow.spot
        ).or (m k) := by
  intro rows
  induction rows with
  | nil => intro m k; simp
  | cons r rs ih =>
    intro m k
    rw [List.foldl_cons, ih, List.reverse_cons, List.find?_append]
    rcases hfind : rs.reverse.find? (fun r => decide (k = key r)) with _ | r'
    · by_cases h : k = key r
      · simp [List.find?_cons, h]
      · simp [List.find?_cons, h]
    · simp

theorem dictOfRows_eq_last (key : SpotRow → String × String)
    (rows : List SpotRow) (k : String × String) :
    dictOfRows key rows k = lastSpotFor key rows k := by
  unfold dictOfRows lastSpotFor
  rw [dictOfRows_lookup]
  exact Option.or_none

/-- C10: when several spot rows share the same (normalized) `(date,
underlying)` key, both the Scanner's spot map and the backtest's `_spot_map`
resolve a lookup to the spot value of the last such row of the table
(last-wins precedence), for every spot table and key. -/
theorem spot_map_last_wins (rows : List SpotRow) (k : String × String) :
    scanSpotMap rows k = lastSpotFor scanSpotKey rows k ∧
    spot_map rows k = lastSpotFor btSpotKey rows k :=
  ⟨dictOfRows_eq_last scanSpotKey rows k, dictOfRows_eq_last btSpotKey rows k⟩

/-! ## BacktestEngine — src/backtest/backtest.py -/

/-- One input row of the backtest (a scanner candidate as re-read from CSV;
backtest.py lines 64-86). `Qv`, `Qb` and `edge` are read with
`r.get(..., default)`, so a missing column is modelled as `none`; the
source defaults are applied by `backtestStep` (`Qv` 1.0, `Qb` 0.0). The
`edge` default `float("nan")` is modelled as the missing value `none`. -/
structure OppRow where
  date : String
  underlying : String
  expiry : String
  spot : ℚ
  binary_type : String
  Kb : ℚ
  Pb : ℚ
  vanilla_type : String
  Kv : ℚ
  Pv_usd : ℚ
  Qv : Option ℚ
  Qb : Option ℚ
  edge : Option ℚ
  deriving Repr, DecidableEq

/-- One output row of the backtest (the dict appended at backtest.py lines
116-136). -/
structure BtRow where
  date : String
  underlying : String
  expiry : String
  spot_t : ℚ
  S_T : ℚ
  binary_type : String
  Kb : ℚ
  Pb : ℚ
  E : ℤ
  vanilla_type : String
  Kv : ℚ
  Pv_usd : ℚ
  Qv : ℚ
  Qb : ℚ
  pnl : ℚ
  cum_pnl : ℚ
  edge : Option ℚ
  deriving Repr, DecidableEq

/-- Embedding of `_binary_outcome` (backtest.py lines 19-30), Lean name
without the leading underscore: the proxy settlement rule. The source's
local `b = str(binary_type).lower().strip()` is written inline. -/
def binary_outcome (binary_type : String) (S_T Kb : ℚ) : Except String ℤ :=
  if pyStrip (pyLower binary_type) = "call" then .ok (if Kb ≤ S_T then 1 else 0)
  else if pyStrip (pyLower binary_type) = "put" then
    .ok (if S_T < Kb then 1 else 0)
  else .error ("Unknown binary_type: " ++ binary_type)

/-- The key normalization `backtest_hold_to_expiry` applies to the candidate
table before its loop (backtest.py lines 54-57). -/
def normalizeOppRow (r : OppRow) : OppRow :=
  { r with
      date := pyStrip r.date
      expiry := pyStrip r.expiry
      underlying := pyStrip (pyUpper r.underlying) }

/-- One iteration of the backtest loop (backtest.py lines 64-136) on a
(normalized) candidate row: resolve the terminal spot under the
`(expiry, underlying)` key, skipping the row if absent; compute the proxy
binary outcome; dispatch on the leg-type pair to the matching payoff
function (any other pair is skipped); return the produced record (if any)
and the updated running `cum_pnl`. -/
def backtestStep (smap : String × String → Option ℚ) (cum : ℚ) (r : OppRow) :
    Except String (Option BtRow × ℚ) :=
  match smap (r.expiry, r.underlying) with
  | none => .ok (none, cum)
  | some S_T =>
    (binary_outcome (pyStrip (pyLower r.binary_type)) S_T r.Kb).bind fun E =>
      if pyStrip (pyLower r.vanilla_type) = "call" ∧
          pyStrip (pyLower r.binary_type) = "put" then
        (payoff_long_call_binary_put S_T r.Kv r.Pv_usd (r.Qv.getD 1) r.Pb
          (r.Qb.getD 0) E).bind fun pnl =>
          .ok (some ⟨r.date, r.underlying, r.expiry, r.spot, S_T,
            pyStrip (pyLower r.binary_type), r.Kb, r.Pb, E,
            pyStrip (pyLower r.vanilla_type), r.Kv, r.Pv_usd, r.Qv.getD 1,
            r.Qb.getD 0, pnl, cum + pnl, r.edge⟩, cum + pnl)
      else if pyStrip (pyLower r.vanilla_type) = "put" ∧
          pyStrip (pyLower r.binary_type) = "call" then
        (payoff_long_put_binary_call S_T r.Kv r.Pv_usd (r.Qv.getD 1) r.Pb
          (r.Qb.getD 0) E).bind fun pnl =>
          .ok (some ⟨r.date, r.underlying, r.expiry, r.spot, S_T,
            pyStrip (pyLower r.binary_type), r.Kb, r.Pb, E,
            pyStrip (pyLower r.vanilla_type), r.Kv, r.Pv_usd, r.Qv.getD 1,
            r.Qb.getD 0, pnl, cum + pnl, r.edge⟩, cum + pnl)
      else .ok (none, cum)

/-- The backtest loop: rows processed in input order, threading the running
`cum_pnl` accumulator. -/
def backtestRun (smap : String × String → Option ℚ) :
    List OppRow → ℚ → Except String (List BtRow)
  | [], _ => .ok []
  | r :: rs, cum =>
    (backtestStep smap cum r).bind fun res =>
      (backtestRun smap rs res.2).map fun rest =>
        match res.1 with
        | none => rest
        | some row => row :: rest

/-- The comparison key of the backtest's final sort (backtest.py line 142):
`["date", "underlying", "expiry"]` ascending. -/
def btRowLe (a b : BtRow) : Bool :=
  if a.date ≠ b.date then strLe a.date b.date
  else if a.underlying ≠ b.underlying then strLe a.underlying b.underlying
  else strLe a.expiry b.expiry

/-- Embedding of `backtest_hold_to_expiry` (backtest.py lines 33-143):
normalize the candidate keys, build the spot map, replay the candidates in
input order, and sort the output by `(date, underlying, expiry)`. -/
def backtest_hold_to_expiry (opp : List OppRow) (spot_df : List SpotRow) :
    Except String (List BtRow) :=
  (backtestRun (spot_map spot_df) (opp.map normalizeOppRow) 0).map
    (sortRows btRowLe)

/-- C8: for every candidate row, the backtest resolves the terminal spot
`S_T` under the `(expiry, underlying)` key — not the decision-date key — and
skips the row (without error) when the observation is absent; when present,
the proxy outcome is `E = 1` iff `S_T >= Kb` for a CALL binary leg and
`E = 1` iff `S_T < Kb` for a PUT binary leg, and the produced record's `pnl`
is exactly the value of the payoff function matching the
(vanilla, binary) = (call, put) or (put, call) leg-type pair. -/
theorem backtest_step_spec (smap : String × String → Option ℚ) (cum : ℚ)
    (r : OppRow) :
    (smap (r.expiry, r.underlying) = none →
      backtestStep smap cum r = .ok (none, cum)) ∧
    (∀ S_T, smap (r.expiry, r.underlying) = some S_T →
      (pyStrip (pyLower r.binary_type) = "call" →
        binary_outcome (pyStrip (pyLower r.binary_type)) S_T r.Kb =
          .ok (if r.Kb ≤ S_T then 1 else 0)) ∧
      (pyStrip (pyLower r.binary_type) = "put" →
        binary_outcome (pyStrip (pyLower r.binary_type)) S_T r.Kb =
          .ok (if S_T < r.Kb then 1 else 0)) ∧
      (∀ E, binary_outcome (pyStrip (pyLower r.binary_type)) S_T r.Kb = .ok E →
        (∀ pnl, pyStrip (pyLower r.vanilla_type) = "call" →
          pyStrip (pyLower r.binary_type) = "put" →
          payoff_long_call_binary_put S_T r.Kv r.Pv_usd (r.Qv.getD 1) r.Pb
            (r.Qb.getD 0) E = .ok pnl →
          ∃ b : BtRow, backtestStep smap cum r = .ok (some b, cum + pnl) ∧
            b.S_T = S_T ∧ b.E = E ∧ b.pnl = pnl ∧ b.cum_pnl = cum + pnl) ∧
        (∀ pnl, pyStrip (pyLower r.vanilla_type) = "put" →
          pyStrip (pyLower r.binary_type) = "call" →
          payoff_long_put_binary_call S_T r.Kv r.Pv_usd (r.Qv.getD 1) r.Pb
            (r.Qb.getD 0) E = .ok pnl →
          ∃ b : BtRow, backtestStep smap cum r = .ok (some b, cum + pnl) ∧
            b.S_T = S_T ∧ b.E = E ∧ b.pnl = pnl ∧ b.cum_pnl = cum + pnl))) := by
  constructor
  · intro hnone
    unfold backtestStep
    rw [hnone]
  · intro S_T hsome
    refine ⟨?_, ?_, ?_⟩
    · intro hbt
      rw [hbt]
      unfold binary_outcome
      rw [if_pos (by decide)]
    · intro hbt
      rw [hbt]
      unfold binary_outcome
      rw [if_neg (by decide), if_pos (by decide)]
    · intro E hE
      constructor
      · intro pnl hvan hbin hpay
        have hstep : backtestStep smap cum r = .ok (some ⟨r.date, r.underlying,
            r.expiry, r.spot, S_T, pyStrip (pyLower r.binary_type), r.Kb, r.Pb,
            E, pyStrip (pyLower r.vanilla_type), r.Kv, r.Pv_usd, r.Qv.getD 1,
            r.Qb.getD 0, pnl, cum + pnl, r.edge⟩, cum + pnl) := by
          simp only [backtestStep, hsome]
          rw [hE]
          simp only [Except.bind]
          rw [if_pos ⟨hvan, hbin⟩, hpay]
        exact ⟨_, hstep, rfl, rfl, rfl, rfl⟩
      · intro pnl hvan hbin hpay
        have hne : ¬(pyStrip (pyLower r.vanilla_type) = "call" ∧
            pyStrip (pyLower r.binary_type) = "put") := by
          intro hcontra
          rw [hvan] at hcontra
          exact absurd hcontra.1 (by decide)
        have hstep : backtestStep smap cum r = .ok (some ⟨r.date, r.underlying,
            r.expiry, r.spot, S_T, pyStrip (pyLower r.binary_type), r.Kb, r.Pb,
            E, pyStrip (pyLower r.vanilla_type), r.Kv, r.Pv_usd, r.Qv.getD 1,
            r.Qb.getD 0, pnl, cum + pnl, r.edge⟩, cum + pnl) := by
          simp only [backtestStep, hsome]
          rw [hE]
          simp only [Except.bind]
          rw [if_neg hne, if_pos ⟨hvan, hbin⟩, hpay]
        exact ⟨_, hstep, rfl, rfl, rfl, rfl⟩

/-- C8 witness: the candidate of the spec's backtest scenario
(decision 2024-01-01, expiry 2024-02-01, BTC, binary PUT at 65000 priced
0.3, vanilla CALL at 60000 with premium 2000, `Qb = 20000/7`), replayed
against terminal spot 58000 recorded under the `(expiry, underlying)` key:
the row is settled with `E = 1` (58000 < 65000, PUT leg) and
`pnl = 1*(0 - 2000) + (20000/7)*(1 - 3/10) = 0`. -/
theorem backtest_step_spec_witness :
    ∃ b : BtRow,
      backtestStep
        (fun k => if k = ("2024-02-01", "BTC") then some 58000 else none) 0
        ⟨"2024-01-01", "BTC", "2024-02-01", 70000, "put", 65000, 3/10, "call",
          60000, 2000, some 1, some (20000/7), some (15000/7)⟩ =
        .ok (some b, 0 + 0) ∧
      b.S_T = 58000 ∧ b.E = 1 ∧ b.pnl = 0 ∧ b.cum_pnl = 0 + 0 := by
  have h := (backtest_step_spec
    (fun k => if k = ("2024-02-01", "BTC") then some 58000 else none) 0
    ⟨"2024-01-01", "BTC", "2024-02-01", 70000, "put", 65000, 3/10, "call",
      60000, 2000, some 1, some (20000/7), some (15000/7)⟩).2 58000 (by simp)
  have hE := h.2.1 (by decide)
  norm_num at hE
  exact (h.2.2 1 hE).1 0 (by decide) (by decide)
    (by norm_num [payoff_long_call_binary_put, max_def])
